import Mathlib

/-!
Verification of the dashboard prediction-chart sanitizer and the Markdown
normalizer of `app/static/js/dashboard.js`.

JavaScript numbers are modelled as `JSNum`: either `NaN` or a rational value.
(An absent numeric field behaves as `NaN` under `isNaN`, so `nan` also covers
`undefined`.)  Strings are modelled as `String` / `List Char`.
-/

/-- A JavaScript number: `NaN` or a numeric (rational) value. -/
inductive JSNum where
  | nan : JSNum
  | num : ℚ → JSNum
deriving DecidableEq, Repr

namespace JSNum

/-- `isNaN(v)`. -/
def isNaN : JSNum → Bool
  | nan => true
  | num _ => false

/-- JS multiplication by a numeric constant (`NaN * c = NaN`). -/
def mulC : JSNum → ℚ → JSNum
  | nan, _ => nan
  | num a, c => num (a * c)

/-- JS addition (`NaN + x = x + NaN = NaN`). -/
def add : JSNum → JSNum → JSNum
  | num a, num b => num (a + b)
  | _, _ => nan

/-- JS subtraction. -/
def sub : JSNum → JSNum → JSNum
  | num a, num b => num (a - b)
  | _, _ => nan

/-- JS division.  Division by zero (which yields `±Infinity` / `NaN` in JS)
is collapsed to `nan`; every division in the embedded code is guarded so that
the divisor is a nonzero numeric value. -/
def div : JSNum → JSNum → JSNum
  | num a, num b => if b = 0 then nan else num (a / b)
  | _, _ => nan

/-- JS comparison `v > c` against a numeric constant (`NaN > c` is false). -/
def gtC : JSNum → ℚ → Bool
  | nan, _ => false
  | num a, c => decide (c < a)

/-- `Math.min` on two values (`NaN` propagates). -/
def min2 : JSNum → JSNum → JSNum
  | num a, num b => num (min a b)
  | _, _ => nan

/-- `Math.max` on two values (`NaN` propagates). -/
def max2 : JSNum → JSNum → JSNum
  | num a, num b => num (max a b)
  | _, _ => nan

end JSNum

open JSNum

/-- `Math.min(...xs)`.  The empty spread yields `Infinity` in JS; it is
collapsed to `nan` here and is unreachable behind the length guards of the
embedded code. -/
def mathMin : List JSNum → JSNum
  | [] => nan
  | x :: t => t.foldl min2 x

/-- `Math.max(...xs)`, same conventions as `mathMin`. -/
def mathMax : List JSNum → JSNum
  | [] => nan
  | x :: t => t.foldl max2 x

/-- One point of a prediction's `forecast` array: `{day, forecast, lower_ci,
upper_ci}`; the numeric fields may be `NaN` (or absent, which reads as `NaN`). -/
structure ForecastPoint where
  day : ℤ
  forecast : JSNum
  lower_ci : JSNum
  upper_ci : JSNum
deriving DecidableEq, Repr

/-- A prediction object as consumed by `renderPredictionCharts`. -/
structure Prediction where
  symbol : String
  last_price : ℚ
  forecast : List ForecastPoint
deriving DecidableEq, Repr

/-- `isNaN(point.forecast) ? 0 : point.forecast` (dashboard.js:386). -/
def sanitizeForecast (point : ForecastPoint) : JSNum :=
  if point.forecast.isNaN then num 0 else point.forecast

/-- `isNaN(point.lower_ci) ? (isNaN(point.forecast) ? 0 : point.forecast * 0.9)
: point.lower_ci` (dashboard.js:387). -/
def sanitizeLower (point : ForecastPoint) : JSNum :=
  if point.lower_ci.isNaN then
    (if point.forecast.isNaN then num 0 else point.forecast.mulC (9 / 10))
  else point.lower_ci

/-- `isNaN(point.upper_ci) ? (isNaN(point.forecast) ? 0 : point.forecast * 1.1)
: point.upper_ci` (dashboard.js:388). -/
def sanitizeUpper (point : ForecastPoint) : JSNum :=
  if point.upper_ci.isNaN then
    (if point.forecast.isNaN then num 0 else point.forecast.mulC (11 / 10))
  else point.upper_ci

/-- `const forecastValues = prediction.forecast.map(...)` (dashboard.js:386). -/
def forecastValues (prediction : Prediction) : List JSNum :=
  prediction.forecast.map sanitizeForecast

/-- `const lowerCI = prediction.forecast.map(...)` (dashboard.js:387). -/
def lowerCI (prediction : Prediction) : List JSNum :=
  prediction.forecast.map sanitizeLower

/-- `const upperCI = prediction.forecast.map(...)` (dashboard.js:388). -/
def upperCI (prediction : Prediction) : List JSNum :=
  prediction.forecast.map sanitizeUpper

/-- `forecastValues.filter(value => !isNaN(value) && value > 0)`
(dashboard.js:467). -/
def validValues (prediction : Prediction) : List JSNum :=
  (forecastValues prediction).filter (fun value => !value.isNaN && value.gtC 0)

/-- `validValues.length > 0 ? validValues.reduce((a, b) => a + b, 0) /
validValues.length : prediction.last_price` (dashboard.js:468-470). -/
def avgForecast (prediction : Prediction) : JSNum :=
  let vs := validValues prediction
  if 0 < vs.length then
    (vs.foldl JSNum.add (num 0)).div (num (vs.length : ℚ))
  else num prediction.last_price

/-- `prediction.last_price > 0 ? ((avgForecast - prediction.last_price) /
prediction.last_price) * 100 : 0` (dashboard.js:472-473). -/
def percentChange (prediction : Prediction) : JSNum :=
  if 0 < prediction.last_price then
    (((avgForecast prediction).sub (num prediction.last_price)).div
      (num prediction.last_price)).mulC 100
  else num 0

/-- `Number.prototype.toFixed(2)`: two-decimal rendering, rounding half away
from zero on the magnitude (ECMAScript rounds the absolute value, picking the
larger candidate on ties, and prepends the sign).  `NaN.toFixed(2) = "NaN"`.
For `q = n / d` the rounded value `⌊|q| * 100 + 1/2⌋` is computed as the
natural division `(200 * |n| + d) / (2 * d)`. -/
def toFixed2 : JSNum → String
  | nan => "NaN"
  | num q =>
    let n : ℕ := (200 * q.num.natAbs + q.den) / (2 * q.den)
    (if q < 0 then "-" else "") ++ toString (n / 100) ++ "." ++
      (if n % 100 < 10 then "0" else "") ++ toString (n % 100)

/-- `getRangeDisplay(lowerArray, upperArray)` (dashboard.js:619-633). -/
def getRangeDisplay (lowerArray upperArray : List JSNum) : String :=
  let validLower := lowerArray.filter (fun val => !val.isNaN)
  let validUpper := upperArray.filter (fun val => !val.isNaN)
  if validLower.length = 0 || validUpper.length = 0 then
    "Range not available"
  else
    let minValue := mathMin validLower
    let maxValue := mathMax validUpper
    "$" ++ toFixed2 minValue ++ " - $" ++ toFixed2 maxValue

/-- The range string computed inside `renderPredictionCharts`:
`getRangeDisplay(lowerCI, upperCI)` (dashboard.js:483). -/
def displayRange (prediction : Prediction) : String :=
  getRangeDisplay (lowerCI prediction) (upperCI prediction)

/-!
## Markdown normalizer (`formatMarkdown`, dashboard.js:636-681)

The function is a chain of JavaScript `String.replace` calls with global
(and for the line-anchored patterns, multiline) regexes, followed by a
paragraph wrap and a list post-pass.  Each regex is embedded as a direct
string transformation on `List Char` with the exact matching semantics of
the pattern: leftmost scan, resuming after each match; `.` never matches a
newline; `\s` may match a newline; greedy runs of a character class followed
by a disjoint required character need no backtracking.
-/

/-- JavaScript `\s` on the characters that occur here: space, tab, newline,
carriage return, vertical tab, form feed. -/
def jsWhitespace (c : Char) : Bool :=
  c = ' ' || c = '\t' || c = '\n' || c = '\r' || c = '\x0b' || c = '\x0c'

/-- The backquote character, U+0060. -/
def backquote : Char := Char.ofNat 96

/-- `pat` is a prefix of `s`. -/
def leadsWith : List Char → List Char → Bool
  | [], _ => true
  | _ :: _, [] => false
  | a :: pat, b :: s => a = b && leadsWith pat s

/-- `s.includes(pat)`: `pat` occurs as a contiguous substring of `s`. -/
def containsSeq (pat : List Char) : List Char → Bool
  | [] => leadsWith pat []
  | b :: s => leadsWith pat (b :: s) || containsSeq pat s

/-- Generic global-replace scanner: at each position the matcher either
consumes a nonempty match, returning the replacement text and the remainder
of the string after the match, or fails and the scan advances one character.
`fuel` bounds the number of steps; every caller passes `length + 1`, which is
sufficient since every step consumes at least one character. -/
def scanReplace (m : List Char → Option (List Char × List Char)) :
    Nat → List Char → List Char
  | 0, s => s
  | _ + 1, [] => []
  | f + 1, c :: t =>
    match m (c :: t) with
    | some (rep, rest) => rep ++ scanReplace m f rest
    | none => c :: scanReplace m f t

/-- Global-replace scanner for the line-anchored (`^...` with the `m` flag)
patterns: a match is attempted at every line start; on failure the whole line
is emitted unchanged (no other position in it can match `^`), on success the
match's remainder continues at the next line. -/
def scanLines (m : List Char → Option (List Char × List Char)) :
    Nat → List Char → List Char
  | 0, s => s
  | f + 1, s =>
    match m s with
    | some (rep, rest) =>
      rep ++ (match rest with
              | [] => []
              | _ :: t => '\n' :: scanLines m f t)
    | none =>
      s.takeWhile (· ≠ '\n') ++
        (match s.dropWhile (· ≠ '\n') with
         | [] => []
         | _ :: t => '\n' :: scanLines m f t)

/-- Split at `'\n'` (the list of lines; no line contains a newline). -/
def splitNl : List Char → List (List Char)
  | [] => [[]]
  | c :: t =>
    if c = '\n' then [] :: splitNl t
    else
      match splitNl t with
      | [] => [[c]]
      | l :: ls => (c :: l) :: ls

/-- Rejoin lines with `'\n'`; inverse of `splitNl`. -/
def joinNl : List (List Char) → List Char
  | [] => []
  | [l] => l
  | l :: ls => l ++ '\n' :: joinNl ls

/-- Apply a per-line rewrite to every line, the effect of a `/^.../gm`
replace whose replacement contains no newline. -/
def mapLines (f : List Char → List Char) (s : List Char) : List Char :=
  joinNl ((splitNl s).map f)

/-- `.replace(/^#..# (.*$)/gm, '<hk>$1</hk>')`, one of the five header rules
(dashboard.js:643-647): a line starting with `k` hashes and a space becomes
`<hk>rest</hk>`. -/
def hRule (k : Nat) (l : List Char) : List Char :=
  if l.take (k + 1) = List.replicate k '#' ++ [' '] then
    '<' :: 'h' :: Nat.digitChar k :: '>' ::
      (l.drop (k + 1) ++ ['<', '/', 'h', Nat.digitChar k, '>'])
  else l

/-- Non-greedy search for a two-character closing delimiter `cc` on the same
line: returns the (minimal) enclosed content and the remainder after the
closing pair. -/
def findClose2 (c : Char) : List Char → Option (List Char × List Char)
  | a :: b :: t =>
    if a = c && b = c then some ([], t)
    else if a = '\n' then none
    else (findClose2 c (b :: t)).map (fun p => (a :: p.1, p.2))
  | _ => none

/-- Non-greedy search for a one-character closing delimiter on the same
line. -/
def findClose1 (c : Char) : List Char → Option (List Char × List Char)
  | [] => none
  | a :: t =>
    if a = c then some ([], t)
    else if a = '\n' then none
    else (findClose1 c t).map (fun p => (a :: p.1, p.2))

/-- Matcher for `/cc(.*?)cc/g` (bold: `\*\*(.*?)\*\*` and `__(.*?)__`,
dashboard.js:650,652). -/
def matchPair2 (c : Char) (openT closeT : List Char) :
    List Char → Option (List Char × List Char)
  | a :: b :: t =>
    if a = c && b = c then
      (findClose2 c t).map (fun p => (openT ++ p.1 ++ closeT, p.2))
    else none
  | _ => none

/-- Matcher for `/c(.*?)c/g` (italic: `\*(.*?)\*` and `_(.*?)_`,
dashboard.js:651,653). -/
def matchPair1 (c : Char) (openT closeT : List Char) :
    List Char → Option (List Char × List Char)
  | a :: t =>
    if a = c then (findClose1 c t).map (fun p => (openT ++ p.1 ++ closeT, p.2))
    else none
  | [] => none

/-- Matcher for `/^\s*\d+\.\s+(.*$)/gm` at a line start (dashboard.js:656):
whitespace (possibly spanning newlines), digits, a dot, whitespace, then the
rest of the line. -/
def matchOrdered (s : List Char) : Option (List Char × List Char) :=
  let t := s.dropWhile jsWhitespace
  if (t.takeWhile Char.isDigit).isEmpty then none
  else
    match t.dropWhile Char.isDigit with
    | '.' :: t2 =>
      if (t2.takeWhile jsWhitespace).isEmpty then none
      else
        let t3 := t2.dropWhile jsWhitespace
        some ('<' :: 'l' :: 'i' :: '>' :: t3.takeWhile (· ≠ '\n') ++
                ['<', '/', 'l', 'i', '>'],
              t3.dropWhile (· ≠ '\n'))
    | _ => none

/-- Matcher for `/^\s*[\-\*]\s+(.*$)/gm` at a line start (dashboard.js:657). -/
def matchBullet (s : List Char) : Option (List Char × List Char) :=
  match s.dropWhile jsWhitespace with
  | m :: t2 =>
    if m = '-' || m = '*' then
      if (t2.takeWhile jsWhitespace).isEmpty then none
      else
        let t3 := t2.dropWhile jsWhitespace
        some ('<' :: 'l' :: 'i' :: '>' :: t3.takeWhile (· ≠ '\n') ++
                ['<', '/', 'l', 'i', '>'],
              t3.dropWhile (· ≠ '\n'))
    else none
  | [] => none

/-- Matcher for `/\[([^\]]+)\]\(([^)]+)\)/g` (links, dashboard.js:660). -/
def matchLink : List Char → Option (List Char × List Char)
  | c :: t =>
    if c = '[' then
      let a := t.takeWhile (· ≠ ']')
      if a.isEmpty then none
      else
        match t.dropWhile (· ≠ ']') with
        | ']' :: '(' :: t2 =>
          let b := t2.takeWhile (· ≠ ')')
          if b.isEmpty then none
          else
            match t2.dropWhile (· ≠ ')') with
            | ')' :: t4 =>
              some ("<a href=".toList ++ '"' :: b ++ '"' :: " target=".toList ++
                      '"' :: "_blank".toList ++ '"' :: '>' :: a ++ "</a>".toList,
                    t4)
            | _ => none
        | _ => none
    else none
  | [] => none

/-- Matcher for the inline-code pattern (a backquote, one or more
non-backquote characters, a backquote; dashboard.js:663). -/
def matchCode : List Char → Option (List Char × List Char)
  | a :: t =>
    if a = backquote then
      let ct := t.takeWhile (· ≠ backquote)
      if ct.isEmpty then none
      else
        match t.dropWhile (· ≠ backquote) with
        | _ :: t2 => some ("<code>".toList ++ ct ++ "</code>".toList, t2)
        | [] => none
    else none
  | [] => none

/-- `.replace(/^\> (.*$)/gm, '<blockquote>$1</blockquote>')`
(dashboard.js:666). -/
def quoteRule (l : List Char) : List Char :=
  if l.take 2 = ['>', ' '] then
    "<blockquote>".toList ++ l.drop 2 ++ "</blockquote>".toList
  else l

/-- For `/\n\s*\n/g`: given the text after an initial `'\n'`, if its leading
whitespace run contains a newline, return the remainder after the last such
newline (the greedy `\s*` followed by the required final `\n`). -/
def afterLastNl : List Char → Option (List Char)
  | [] => none
  | c :: t =>
    if jsWhitespace c then
      match afterLastNl t with
      | some r => some r
      | none => if c = '\n' then some t else none
    else none

/-- Matcher for `/\n\s*\n/g → '</p><p>'` (dashboard.js:669). -/
def matchBlank : List Char → Option (List Char × List Char)
  | c :: t =>
    if c = '\n' then (afterLastNl t).map (fun r => ("</p><p>".toList, r))
    else none
  | [] => none

/-- `.replace(/\n/g, '<br>')` (dashboard.js:670). -/
def brPass : List Char → List Char
  | [] => []
  | c :: t => (if c = '\n' then "<br>".toList else [c]) ++ brPass t

/-- Matcher for `/<p>(\s*<li>)/g → '<p><ul>$1'` (dashboard.js:677). -/
def matchFixOpen (s : List Char) : Option (List Char × List Char) :=
  if leadsWith "<p>".toList s then
    let t := s.drop 3
    let w := t.takeWhile jsWhitespace
    let u := t.dropWhile jsWhitespace
    if leadsWith "<li>".toList u then
      some ("<p><ul>".toList ++ w ++ "<li>".toList, u.drop 4)
    else none
  else none

/-- Matcher for the closing fix `(<\/li>\s*)<\/p> → '$1</ul></p>'`
(dashboard.js:678). -/
def matchFixClose (s : List Char) : Option (List Char × List Char) :=
  if leadsWith "</li>".toList s then
    let t := s.drop 5
    let w := t.takeWhile jsWhitespace
    let u := t.dropWhile jsWhitespace
    if leadsWith "</p>".toList u then
      some ("</li>".toList ++ w ++ "</ul></p>".toList, u.drop 4)
    else none
  else none

/-- Run a `scanReplace` pass with sufficient fuel. -/
def runScan (m : List Char → Option (List Char × List Char))
    (s : List Char) : List Char :=
  scanReplace m (s.length + 1) s

/-- Run a `scanLines` pass with sufficient fuel. -/
def runScanLines (m : List Char → Option (List Char × List Char))
    (s : List Char) : List Char :=
  scanLines m (s.length + 1) s

/-- The full replacement chain of `formatMarkdown` on the character list of a
nonempty input (dashboard.js:641-679), in source order: headers h1-h5, bold
`**`, italic `*`, bold `__`, italic `_`, ordered and unordered list items,
links, inline code, blockquotes, blank-line paragraph breaks, `<br>`
line breaks, the outer `<p>...</p>` wrap, and the guarded `<ul>` post-pass. -/
def mdTail (s5 : List Char) : List Char :=
  let s16 :=
    brPass (runScan matchBlank (mapLines quoteRule (runScan matchCode
      (runScan matchLink (runScanLines matchBullet (runScanLines matchOrdered
      (runScan (matchPair1 '_' "<em>".toList "</em>".toList)
      (runScan (matchPair2 '_' "<strong>".toList "</strong>".toList)
      (runScan (matchPair1 '*' "<em>".toList "</em>".toList)
      (runScan (matchPair2 '*' "<strong>".toList "</strong>".toList)
        s5))))))))))
  let s17 := "<p>".toList ++ s16 ++ "</p>".toList
  if containsSeq "<li>".toList s17 then
    runScan matchFixClose (runScan matchFixOpen s17)
  else s17

/-- The header stages of the chain followed by `mdTail`. -/
def mdPipeline (s0 : List Char) : List Char :=
  mdTail (mapLines (hRule 5) (mapLines (hRule 4) (mapLines (hRule 3)
    (mapLines (hRule 2) (mapLines (hRule 1) s0)))))

/-- `formatMarkdown(text)` (dashboard.js:636-681).  `none` models a null or
undefined argument; `if (!text) return ''` also sends the empty string to the
empty string. -/
def formatMarkdown (text : Option String) : String :=
  match text with
  | none => ""
  | some t => if t = "" then "" else (mdPipeline t.toList).asString

/-!
## Spec-side definitions

These definitions follow the wording of the specification (not the code) and
are compared with the embedded code above in the claim theorems.
-/

/-- The original forecast values that are non-NaN and strictly greater
than 0, in order (the spec's notion of *valid* forecast values). -/
def validOriginals (prediction : Prediction) : List ℚ :=
  prediction.forecast.filterMap (fun p =>
    match p.forecast with
    | nan => none
    | num q => if 0 < q then some q else none)

/-- The spec's average forecast: the arithmetic mean of the valid original
forecast values, falling back to the last price when none is valid. -/
def qAvg (prediction : Prediction) : ℚ :=
  if 0 < (validOriginals prediction).length then
    (validOriginals prediction).sum / ((validOriginals prediction).length : ℚ)
  else prediction.last_price

/-- The numeric (non-NaN) entries of an array, in order. -/
def qValues (a : List JSNum) : List ℚ :=
  a.filterMap (fun v => match v with | nan => none | num q => some q)

/-- Minimum of a rational list (`none` on the empty list). -/
def listMinQ : List ℚ → Option ℚ
  | [] => none
  | x :: t => some (t.foldl min x)

/-- Maximum of a rational list (`none` on the empty list). -/
def listMaxQ : List ℚ → Option ℚ
  | [] => none
  | x :: t => some (t.foldl max x)

/-- The display range as the spec words it: `"$<min> - $<max>"` over the
valid (non-NaN) lower and upper values, two-decimal formatted, and the
literal `"Range not available"` when either set of valid values is empty. -/
def specRange (lowerArray upperArray : List JSNum) : String :=
  match listMinQ (qValues lowerArray), listMaxQ (qValues upperArray) with
  | some mn, some mx => "$" ++ toFixed2 (num mn) ++ " - $" ++ toFixed2 (num mx)
  | _, _ => "Range not available"

/-- A character that triggers none of the inline Markdown rules and is not a
newline: the "plain text" alphabet for the general header statement. -/
def mdPlain (c : Char) : Prop :=
  c ≠ '\n' ∧ c ≠ '*' ∧ c ≠ '_' ∧ c ≠ '[' ∧ c ≠ backquote ∧ c ≠ '<'

/-- A prediction with one fully valid forecast point, used to instantiate the
claim theorems. -/
def predBasic : Prediction := ⟨"AAPL", 100, [⟨0, num 110, nan, nan⟩]⟩

/-- A prediction with a non-positive last price. -/
def predZeroPrice : Prediction := ⟨"ZERO", 0, [⟨0, num 110, nan, nan⟩]⟩

/-- A prediction whose single point has a valid positive `lower_ci` while
`forecast` and `upper_ci` are NaN. -/
def predInverted : Prediction := ⟨"INV", 100, [⟨0, nan, num 50, nan⟩]⟩

lemma sanitizeForecast_not_nan (p : ForecastPoint) :
    (sanitizeForecast p).isNaN = false := by
  unfold sanitizeForecast
  cases h : p.forecast <;> simp [JSNum.isNaN, h]

lemma sanitizeLower_not_nan (p : ForecastPoint) :
    (sanitizeLower p).isNaN = false := by
  unfold sanitizeLower
  cases hl : p.lower_ci <;> cases hf : p.forecast <;>
    simp [JSNum.isNaN, JSNum.mulC, hl, hf]

lemma sanitizeUpper_not_nan (p : ForecastPoint) :
    (sanitizeUpper p).isNaN = false := by
  unfold sanitizeUpper
  cases hu : p.upper_ci <;> cases hf : p.forecast <;>
    simp [JSNum.isNaN, JSNum.mulC, hu, hf]

lemma validValues_eq_originals (prediction : Prediction) :
    validValues prediction = (validOriginals prediction).map num := by
  unfold validValues forecastValues validOriginals
  induction prediction.forecast with
  | nil => rfl
  | cons p t ih =>
    rw [List.map_cons, List.filter_cons, List.filterMap_cons]
    cases hf : p.forecast with
    | nan =>
      have hh : (!(sanitizeForecast p).isNaN && (sanitizeForecast p).gtC 0) = false := by
        simp [sanitizeForecast, hf, JSNum.isNaN, JSNum.gtC]
      rw [hh, ih]
      simp
    | num q =>
      by_cases hq : 0 < q
      · have hh : (!(sanitizeForecast p).isNaN && (sanitizeForecast p).gtC 0) = true := by
          simp [sanitizeForecast, hf, JSNum.isNaN, JSNum.gtC, hq]
        have hs : sanitizeForecast p = num q := by
          simp [sanitizeForecast, hf, JSNum.isNaN]
        rw [hh, hs, ih]
        simp [hq]
      · have hh : (!(sanitizeForecast p).isNaN && (sanitizeForecast p).gtC 0) = false := by
          simp [sanitizeForecast, hf, JSNum.isNaN, JSNum.gtC, hq]
        rw [hh, ih]
        simp [hq]

lemma foldl_add_map_num (l : List ℚ) (a : ℚ) :
    (l.map num).foldl JSNum.add (num a) = num (a + l.sum) := by
  induction l generalizing a with
  | nil => simp
  | cons x t ih => simp [JSNum.add, ih, add_assoc]

lemma avgForecast_eq_qAvg (prediction : Prediction) :
    avgForecast prediction = num (qAvg prediction) := by
  unfold avgForecast qAvg
  rw [validValues_eq_originals]
  rcases h : validOriginals prediction with _ | ⟨x, t⟩
  · simp
  · have hlen : ((t.length : ℚ) + 1) ≠ 0 := Nat.cast_add_one_ne_zero t.length
    simp [JSNum.add, foldl_add_map_num, JSNum.div, hlen]

/-- Claim C1: for every input array of forecast points, the three sanitized
arrays `forecastValues`, `lowerCI`, `upperCI` each have the same length as the
input forecast array and contain no NaN entry. -/
theorem claim1_sanitizer_length_no_nan (prediction : Prediction) :
    ((forecastValues prediction).length = prediction.forecast.length ∧
      (forecastValues prediction).all (fun v => !v.isNaN) = true) ∧
    ((lowerCI prediction).length = prediction.forecast.length ∧
      (lowerCI prediction).all (fun v => !v.isNaN) = true) ∧
    ((upperCI prediction).length = prediction.forecast.length ∧
      (upperCI prediction).all (fun v => !v.isNaN) = true) := by
  refine ⟨⟨?_, ?_⟩, ⟨?_, ?_⟩, ⟨?_, ?_⟩⟩ <;>
    simp [forecastValues, lowerCI, upperCI, List.all_eq_true,
      sanitizeForecast_not_nan, sanitizeLower_not_nan, sanitizeUpper_not_nan]

/-- Claim C2: the per-point sanitizer formulas: the forecast value is the
point's forecast when non-NaN and 0 otherwise; the lower (resp. upper) value
is the point's bound when non-NaN, else forecast × 0.9 (resp. × 1.1) when the
forecast is non-NaN, else 0; concretely, forecast 110 with NaN bounds gives
fallbacks 99 and 121, and a NaN forecast with NaN bounds gives the degenerate
0 fallback on both sides. -/
theorem claim2_sanitizer_pointwise :
    (∀ p : ForecastPoint, ∀ q : ℚ, p.forecast = num q → sanitizeForecast p = num q) ∧
    (∀ p : ForecastPoint, p.forecast = nan → sanitizeForecast p = num 0) ∧
    (∀ p : ForecastPoint, ∀ q : ℚ, p.lower_ci = num q → sanitizeLower p = num q) ∧
    (∀ p : ForecastPoint, ∀ q : ℚ, p.lower_ci = nan → p.forecast = num q →
      sanitizeLower p = num (q * (9 / 10))) ∧
    (∀ p : ForecastPoint, p.lower_ci = nan → p.forecast = nan →
      sanitizeLower p = num 0) ∧
    (∀ p : ForecastPoint, ∀ q : ℚ, p.upper_ci = num q → sanitizeUpper p = num q) ∧
    (∀ p : ForecastPoint, ∀ q : ℚ, p.upper_ci = nan → p.forecast = num q →
      sanitizeUpper p = num (q * (11 / 10))) ∧
    (∀ p : ForecastPoint, p.upper_ci = nan → p.forecast = nan →
      sanitizeUpper p = num 0) ∧
    sanitizeLower ⟨0, num 110, nan, nan⟩ = num 99 ∧
    sanitizeUpper ⟨0, num 110, nan, nan⟩ = num 121 := by
  refine ⟨?_, ?_, ?_, ?_, ?_, ?_, ?_, ?_, ?_, ?_⟩
  · intro p q h; simp [sanitizeForecast, h, JSNum.isNaN]
  · intro p h; simp [sanitizeForecast, h, JSNum.isNaN]
  · intro p q h; simp [sanitizeLower, h, JSNum.isNaN]
  · intro p q hl hf; simp [sanitizeLower, hl, hf, JSNum.isNaN, JSNum.mulC]
  · intro p hl hf; simp [sanitizeLower, hl, hf, JSNum.isNaN]
  · intro p q h; simp [sanitizeUpper, h, JSNum.isNaN]
  · intro p q hu hf; simp [sanitizeUpper, hu, hf, JSNum.isNaN, JSNum.mulC]
  · intro p hu hf; simp [sanitizeUpper, hu, hf, JSNum.isNaN]
  · show sanitizeLower ⟨0, num 110, nan, nan⟩ = num 99
    simp [sanitizeLower, JSNum.isNaN, JSNum.mulC]
    norm_num
  · show sanitizeUpper ⟨0, num 110, nan, nan⟩ = num 121
    simp [sanitizeUpper, JSNum.isNaN, JSNum.mulC]
    norm_num

/-- Witness for claim C2 at the concrete point with forecast 110 and NaN
bounds, and at a point with NaN forecast and NaN bounds. -/
theorem claim2_sanitizer_pointwise_witness :
    sanitizeLower ⟨0, num 110, nan, nan⟩ = num (110 * (9 / 10)) ∧
    sanitizeUpper ⟨0, num 110, nan, nan⟩ = num (110 * (11 / 10)) ∧
    sanitizeLower ⟨0, nan, nan, nan⟩ = num 0 ∧
    sanitizeUpper ⟨0, nan, nan, nan⟩ = num 0 :=
  ⟨claim2_sanitizer_pointwise.2.2.2.1 ⟨0, num 110, nan, nan⟩ 110 rfl rfl,
   claim2_sanitizer_pointwise.2.2.2.2.2.2.1 ⟨0, num 110, nan, nan⟩ 110 rfl rfl,
   claim2_sanitizer_pointwise.2.2.2.2.1 ⟨0, nan, nan, nan⟩ rfl rfl,
   claim2_sanitizer_pointwise.2.2.2.2.2.2.2.1 ⟨0, nan, nan, nan⟩ rfl rfl⟩

/-- Claim C3: the average forecast computed by `renderPredictionCharts` is
the arithmetic mean of the original forecast values that are non-NaN and
strictly positive, and `last_price` when no such value exists. -/
theorem claim3_average_forecast (prediction : Prediction) :
    avgForecast prediction =
      (if 0 < (validOriginals prediction).length then
        num ((validOriginals prediction).sum /
          ((validOriginals prediction).length : ℚ))
      else num prediction.last_price) := by
  rw [avgForecast_eq_qAvg]
  unfold qAvg
  split <;> rfl

lemma filter_not_nan_eq (a : List JSNum) :
    a.filter (fun v => !v.isNaN) = (qValues a).map num := by
  unfold qValues
  induction a with
  | nil => rfl
  | cons v t ih =>
    rw [List.filter_cons, List.filterMap_cons]
    cases v with
    | nan =>
      have hh : (!(nan : JSNum).isNaN) = false := rfl
      rw [hh, ih]
      simp
    | num q =>
      have hh : (!(num q).isNaN) = true := rfl
      rw [hh, ih]
      simp

lemma foldl_min2_map_num (t : List ℚ) (x : ℚ) :
    (t.map num).foldl min2 (num x) = num (t.foldl min x) := by
  induction t generalizing x with
  | nil => rfl
  | cons y u ih => simp [JSNum.min2, ih]

lemma foldl_max2_map_num (t : List ℚ) (x : ℚ) :
    (t.map num).foldl max2 (num x) = num (t.foldl max x) := by
  induction t generalizing x with
  | nil => rfl
  | cons y u ih => simp [JSNum.max2, ih]

/-- Claim C4: `getRangeDisplay` returns `"$<min> - $<max>"` with min the
minimum of the non-NaN lower entries and max the maximum of the non-NaN upper
entries, each two-decimal formatted, and returns the literal
`"Range not available"` exactly when either filtered set is empty; in
particular on `[NaN,NaN]`, `[NaN,NaN]`. -/
theorem claim4_range_display :
    (∀ lowerArray upperArray : List JSNum,
      getRangeDisplay lowerArray upperArray = specRange lowerArray upperArray) ∧
    getRangeDisplay [nan, nan] [nan, nan] = "Range not available" := by
  constructor
  · intro la ua
    unfold getRangeDisplay specRange
    rw [filter_not_nan_eq la, filter_not_nan_eq ua]
    rcases hl : qValues la with _ | ⟨x, t⟩ <;> rcases hu : qValues ua with _ | ⟨y, u⟩
    · rfl
    · rfl
    · rfl
    · simp [listMinQ, listMaxQ, mathMin, mathMax, foldl_min2_map_num,
        foldl_max2_map_num]
  · decide

/-- Claim C5: `percentChange` is `((average − lastPrice) / lastPrice) × 100`
when the last price is strictly positive and `0` otherwise; the division by
`last_price` is guarded by the strict-positivity test. -/
theorem claim5_percent_change (prediction : Prediction) :
    (0 < prediction.last_price →
      percentChange prediction =
        num ((qAvg prediction - prediction.last_price) /
          prediction.last_price * 100)) ∧
    (prediction.last_price ≤ 0 → percentChange prediction = num 0) := by
  constructor
  · intro h
    unfold percentChange
    rw [if_pos h, avgForecast_eq_qAvg]
    simp [JSNum.sub, JSNum.div, JSNum.mulC, ne_of_gt h]
  · intro h
    unfold percentChange
    rw [if_neg (by exact absurd · (not_lt.mpr h))]

/-- Witness for claim C5: a positive last price (100) takes the percent
formula, a zero last price takes the guarded 0 branch. -/
theorem claim5_percent_change_witness :
    percentChange predBasic =
      num ((qAvg predBasic - predBasic.last_price) / predBasic.last_price * 100) ∧
    percentChange predZeroPrice = num 0 :=
  ⟨(claim5_percent_change predBasic).1 (by decide),
   (claim5_percent_change predZeroPrice).2 (by decide)⟩

/-- Claim C9: inside the prediction-chart pipeline the range display is
computed from the sanitized arrays, so the `"Range not available"` sentinel
appears exactly when the forecast array is empty. -/
theorem claim9_range_sentinel_iff_empty (prediction : Prediction) :
    displayRange prediction = "Range not available" ↔
      prediction.forecast = [] := by
  unfold displayRange getRangeDisplay
  have hl : (lowerCI prediction).filter (fun v => !v.isNaN) = lowerCI prediction := by
    rw [List.filter_eq_self]
    intro v hv
    rcases List.mem_map.mp hv with ⟨p, _, rfl⟩
    simp [sanitizeLower_not_nan]
  have hu : (upperCI prediction).filter (fun v => !v.isNaN) = upperCI prediction := by
    rw [List.filter_eq_self]
    intro v hv
    rcases List.mem_map.mp hv with ⟨p, _, rfl⟩
    simp [sanitizeUpper_not_nan]
  rw [hl, hu]
  dsimp only
  rcases hf : prediction.forecast with _ | ⟨p, t⟩
  · simp [lowerCI, upperCI, hf]
  · have hll : (lowerCI prediction).length = t.length + 1 := by
      simp [lowerCI, hf]
    have hul : (upperCI prediction).length = t.length + 1 := by
      simp [upperCI, hf]
    rw [hll, hul]
    simp only [Nat.succ_ne_zero, if_neg]
    constructor
    · intro h
      exact absurd h (by
        intro h2
        have h3 := congrArg (fun s => s.data) h2
        simp [String.data_append] at h3)
    · intro h
      exact absurd (hf ▸ h) (List.cons_ne_nil p t)

/-- Claim C10: the sanitizer enforces no ordering between the lower and upper
series: for `predInverted` (valid positive `lower_ci`, NaN `forecast` and
`upper_ci`) the minimum of the lower array is 50 while the maximum of the
upper array is 0, and the displayed range string has its minimum above its
maximum. -/
theorem claim10_inverted_range :
    mathMin ((lowerCI predInverted).filter (fun v => !v.isNaN)) = num 50 ∧
    mathMax ((upperCI predInverted).filter (fun v => !v.isNaN)) = num 0 ∧
    (0 : ℚ) < 50 ∧
    displayRange predInverted = "$50.00 - $0.00" := by
  refine ⟨by decide, by decide, by norm_num, by decide⟩

/-! ## Helper lemmas: Markdown passes that do not fire -/

lemma scanReplace_eq_self (m : List Char → Option (List Char × List Char)) :
    ∀ (f : Nat) (s : List Char), (∀ t, t <:+ s → m t = none) →
      scanReplace m f s = s := by
  intro f
  induction f with
  | zero => intro s _; rfl
  | succ f ih =>
    intro s h
    cases s with
    | nil => rfl
    | cons c t =>
      rw [scanReplace, h (c :: t) (List.suffix_refl _)]
      rw [ih t (fun u hu => h u (hu.trans (List.suffix_cons c t)))]

lemma runScan_eq_self (m : List Char → Option (List Char × List Char))
    (s : List Char) (h : ∀ t, t <:+ s → m t = none) : runScan m s = s :=
  scanReplace_eq_self m _ s h

lemma takeWhile_eq_self (p : Char → Bool) :
    ∀ s : List Char, (∀ c ∈ s, p c = true) → s.takeWhile p = s := by
  intro s h
  induction s with
  | nil => rfl
  | cons c t ih =>
    rw [List.takeWhile_cons, h c (List.mem_cons_self c t)]
    rw [ih (fun x hx => h x (List.mem_cons_of_mem c hx))]
    simp

lemma dropWhile_eq_nil (p : Char → Bool) :
    ∀ s : List Char, (∀ c ∈ s, p c = true) → s.dropWhile p = [] := by
  intro s h
  induction s with
  | nil => rfl
  | cons c t ih =>
    rw [List.dropWhile_cons, h c (List.mem_cons_self c t)]
    exact ih (fun x hx => h x (List.mem_cons_of_mem c hx))

lemma scanLines_eq_self (m : List Char → Option (List Char × List Char))
    (f : Nat) (s : List Char) (hnl : ∀ c ∈ s, c ≠ '\n') (hm : m s = none) :
    scanLines m f s = s := by
  cases f with
  | zero => rfl
  | succ f =>
    rw [scanLines, hm]
    have ht : s.takeWhile (· ≠ '\n') = s :=
      takeWhile_eq_self _ s (fun c hc => by simpa using hnl c hc)
    have hd : s.dropWhile (· ≠ '\n') = [] :=
      dropWhile_eq_nil _ s (fun c hc => by simpa using hnl c hc)
    rw [ht, hd]
    exact List.append_nil s

lemma runScanLines_eq_self (m : List Char → Option (List Char × List Char))
    (s : List Char) (hnl : ∀ c ∈ s, c ≠ '\n') (hm : m s = none) :
    runScanLines m s = s :=
  scanLines_eq_self m _ s hnl hm

lemma splitNl_no_nl (s : List Char) (h : ∀ c ∈ s, c ≠ '\n') :
    splitNl s = [s] := by
  induction s with
  | nil => rfl
  | cons c t ih =>
    rw [splitNl]
    rw [if_neg (h c (List.mem_cons_self c t))]
    rw [ih (fun x hx => h x (List.mem_cons_of_mem c hx))]

lemma mapLines_no_nl (f : List Char → List Char) (s : List Char)
    (h : ∀ c ∈ s, c ≠ '\n') : mapLines f s = f s := by
  rw [mapLines, splitNl_no_nl s h]
  rfl

lemma brPass_no_nl (s : List Char) (h : ∀ c ∈ s, c ≠ '\n') :
    brPass s = s := by
  induction s with
  | nil => rfl
  | cons c t ih =>
    rw [brPass, if_neg (h c (List.mem_cons_self c t))]
    rw [ih (fun x hx => h x (List.mem_cons_of_mem c hx))]
    rfl

lemma matchPair2_none (c : Char) (o cl : List Char) (s : List Char)
    (h : ∀ x ∈ s, x ≠ c) : ∀ t, t <:+ s → matchPair2 c o cl t = none := by
  intro t ht
  match t with
  | [] => rfl
  | [a] => rfl
  | a :: b :: u =>
    have ha : a ≠ c := h a (ht.subset (List.mem_cons_self a _))
    simp [matchPair2, ha]

lemma matchPair1_none (c : Char) (o cl : List Char) (s : List Char)
    (h : ∀ x ∈ s, x ≠ c) : ∀ t, t <:+ s → matchPair1 c o cl t = none := by
  intro t ht
  match t with
  | [] => rfl
  | a :: u =>
    have ha : a ≠ c := h a (ht.subset (List.mem_cons_self a _))
    simp [matchPair1, ha]

lemma matchLink_none (s : List Char) (h : ∀ x ∈ s, x ≠ '[') :
    ∀ t, t <:+ s → matchLink t = none := by
  intro t ht
  match t with
  | [] => rfl
  | a :: u =>
    have ha : a ≠ '[' := h a (ht.subset (List.mem_cons_self a _))
    simp [matchLink, ha]

lemma matchCode_none (s : List Char) (h : ∀ x ∈ s, x ≠ backquote) :
    ∀ t, t <:+ s → matchCode t = none := by
  intro t ht
  match t with
  | [] => rfl
  | a :: u =>
    have ha : a ≠ backquote := h a (ht.subset (List.mem_cons_self a _))
    simp [matchCode, ha]

lemma matchBlank_none (s : List Char) (h : ∀ x ∈ s, x ≠ '\n') :
    ∀ t, t <:+ s → matchBlank t = none := by
  intro t ht
  match t with
  | [] => rfl
  | a :: u =>
    have ha : a ≠ '\n' := h a (ht.subset (List.mem_cons_self a _))
    simp [matchBlank, ha]

/-- Claim C8: bold is substituted before italic of the same delimiter, so
`"**bold** and *italic*"` yields both `<strong>bold</strong>` and
`<em>italic</em>` in the output. -/
theorem claim8_bold_before_italic :
    formatMarkdown (some "**bold** and *italic*") =
      "<p><strong>bold</strong> and <em>italic</em></p>" ∧
    containsSeq "<strong>bold</strong>".toList
      (formatMarkdown (some "**bold** and *italic*")).toList = true ∧
    containsSeq "<em>italic</em>".toList
      (formatMarkdown (some "**bold** and *italic*")).toList = true := by
  refine ⟨by decide, by decide, by decide⟩

/-- Counterexample to claim C6: on input `"hello\n- item"` the output
paragraph contains an `<li>` element, yet no `<ul>` is inserted anywhere (in
particular not immediately inside the opening `<p>`); only the closing
`</ul>` appears. -/
theorem claim6_counterexample :
    formatMarkdown (some "hello\n- item") =
      "<p>hello<br><li>item</li></ul></p>" ∧
    containsSeq "<li>".toList
      (formatMarkdown (some "hello\n- item")).toList = true ∧
    containsSeq "<ul>".toList
      (formatMarkdown (some "hello\n- item")).toList = false ∧
    containsSeq "<p><ul>".toList
      (formatMarkdown (some "hello\n- item")).toList = false := by
  refine ⟨by decide, by decide, by decide, by decide⟩

/-- Claim C6 as amended: the post-pass inserts `<ul>` after a `<p>` only at
occurrences of `<p>` followed (after optional whitespace) by `<li>`, and
`</ul>` only at occurrences of `</li>` followed (after optional whitespace)
by `</p>`; a paragraph whose list items start at its opening `<p>` is fully
wrapped, while one whose `<li>` sits mid-paragraph receives no opening
`<ul>`. -/
theorem claim6_amended_ul_wrap :
    (∀ s : List Char, (∀ t ∈ s.tails, matchFixOpen t = none) →
      runScan matchFixOpen s = s) ∧
    (∀ s : List Char, (∀ t ∈ s.tails, matchFixClose t = none) →
      runScan matchFixClose s = s) ∧
    formatMarkdown (some "- item") = "<p><ul><li>item</li></ul></p>" ∧
    formatMarkdown (some "hello\n- item") =
      "<p>hello<br><li>item</li></ul></p>" := by
  refine ⟨?_, ?_, by decide, by decide⟩
  · intro s h
    exact runScan_eq_self _ s (fun t ht => h t ((List.mem_tails t s).mpr ht))
  · intro s h
    exact runScan_eq_self _ s (fun t ht => h t ((List.mem_tails t s).mpr ht))

/-- Witness for claim C6 as amended: its two general parts applied to the
concrete string `"no list here"`, on which neither fix pattern matches. -/
theorem claim6_amended_ul_wrap_witness :
    runScan matchFixOpen "no list here".toList = "no list here".toList ∧
    runScan matchFixClose "no list here".toList = "no list here".toList :=
  ⟨claim6_amended_ul_wrap.1 "no list here".toList (by decide),
   claim6_amended_ul_wrap.2.1 "no list here".toList (by decide)⟩

/-! ## Helper lemmas for the header claim -/

lemma inline_passes_id (s : List Char)
    (hnl : ∀ c ∈ s, c ≠ '\n') (hst : ∀ c ∈ s, c ≠ '*')
    (hun : ∀ c ∈ s, c ≠ '_') (hbk : ∀ c ∈ s, c ≠ '[')
    (hbq : ∀ c ∈ s, c ≠ backquote)
    (hord : matchOrdered s = none) (hbul : matchBullet s = none)
    (hqr : quoteRule s = s) :
    brPass (runScan matchBlank (mapLines quoteRule (runScan matchCode
      (runScan matchLink (runScanLines matchBullet (runScanLines matchOrdered
      (runScan (matchPair1 '_' "<em>".toList "</em>".toList)
      (runScan (matchPair2 '_' "<strong>".toList "</strong>".toList)
      (runScan (matchPair1 '*' "<em>".toList "</em>".toList)
      (runScan (matchPair2 '*' "<strong>".toList "</strong>".toList)
        s)))))))))) = s := by
  rw [runScan_eq_self _ s (matchPair2_none '*' _ _ s hst)]
  rw [runScan_eq_self _ s (matchPair1_none '*' _ _ s hst)]
  rw [runScan_eq_self _ s (matchPair2_none '_' _ _ s hun)]
  rw [runScan_eq_self _ s (matchPair1_none '_' _ _ s hun)]
  rw [runScanLines_eq_self _ s hnl hord]
  rw [runScanLines_eq_self _ s hnl hbul]
  rw [runScan_eq_self _ s (matchLink_none s hbk)]
  rw [runScan_eq_self _ s (matchCode_none s hbq)]
  rw [mapLines_no_nl _ s hnl, hqr]
  rw [runScan_eq_self _ s (matchBlank_none s hnl)]
  exact brPass_no_nl s hnl

lemma matchOrdered_none_head (c : Char) (t : List Char)
    (hws : jsWhitespace c = false) (hd : c.isDigit = false) :
    matchOrdered (c :: t) = none := by
  unfold matchOrdered
  rw [List.dropWhile_cons, hws]
  simp [List.takeWhile_cons, hd]

lemma matchBullet_none_head (c : Char) (t : List Char)
    (hws : jsWhitespace c = false) (h1 : c ≠ '-') (h2 : c ≠ '*') :
    matchBullet (c :: t) = none := by
  unfold matchBullet
  rw [List.dropWhile_cons, hws]
  simp [h1, h2]

lemma quoteRule_ne_head (c : Char) (t : List Char) (h : c ≠ '>') :
    quoteRule (c :: t) = c :: t := by
  unfold quoteRule
  rw [if_neg]
  intro hc
  rw [List.take_succ_cons] at hc
  exact h (List.head_eq_of_cons_eq hc)  -- c = '>' from list eq

lemma hRule_no_hash (k : Nat) (c : Char) (t : List Char)
    (h1 : c ≠ '#') (h2 : c ≠ ' ') : hRule k (c :: t) = c :: t := by
  unfold hRule
  rw [if_neg]
  intro hc
  rw [List.take_succ_cons] at hc
  cases k with
  | zero =>
    rw [List.replicate_zero, List.nil_append] at hc
    exact h2 (List.head_eq_of_cons_eq hc)
  | succ k =>
    rw [List.replicate_succ, List.cons_append] at hc
    exact h1 (List.head_eq_of_cons_eq hc)

lemma containsSeq_append (a : Char) (p2 : List Char) (xs ys : List Char)
    (h : ∀ c ∈ xs, c ≠ a) :
    containsSeq (a :: p2) (xs ++ ys) = containsSeq (a :: p2) ys := by
  induction xs with
  | nil => rfl
  | cons c t ih =>
    rw [List.cons_append, containsSeq]
    have hc : ¬(a = c) := fun hh => h c (List.mem_cons_self c t) hh.symm
    have hlw : leadsWith (a :: p2) (c :: (t ++ ys)) = false := by
      simp [leadsWith, hc]
    rw [hlw, ih (fun x hx => h x (List.mem_cons_of_mem c hx))]
    simp

lemma header_line_avoid (d : Char) (rest : List Char) (x : Char)
    (hx : x ≠ '<' ∧ x ≠ 'h' ∧ x ≠ d ∧ x ≠ '>' ∧ x ≠ '/')
    (hr : ∀ c ∈ rest, c ≠ x) :
    ∀ c ∈ ('<' :: 'h' :: d :: '>' :: (rest ++ ['<', '/', 'h', d, '>'])),
      c ≠ x := by
  intro c hc
  simp only [List.mem_cons, List.mem_append] at hc
  rcases hc with rfl | rfl | rfl | rfl | hc
  · exact fun he => hx.1 he.symm
  · exact fun he => hx.2.1 he.symm
  · exact fun he => hx.2.2.1 he.symm
  · exact fun he => hx.2.2.2.1 he.symm
  · rcases hc with hc | hc
    · exact hr c hc
    · rcases hc with rfl | rfl | rfl | rfl | rfl | hfalse
      · exact fun he => hx.1 he.symm
      · exact fun he => hx.2.2.2.2 he.symm
      · exact fun he => hx.2.1 he.symm
      · exact fun he => hx.2.2.1 he.symm
      · exact fun he => hx.2.2.2.1 he.symm
      · exact absurd hfalse (List.not_mem_nil c)

lemma mdTail_header_line (d : Char) (hd : mdPlain d) (rest : List Char)
    (h : ∀ c ∈ rest, mdPlain c) :
    mdTail ('<' :: 'h' :: d :: '>' :: (rest ++ ['<', '/', 'h', d, '>'])) =
      "<p>".toList ++
        ('<' :: 'h' :: d :: '>' :: (rest ++ ['<', '/', 'h', d, '>'])) ++
        "</p>".toList := by
  have hnl := header_line_avoid d rest '\n'
    ⟨by decide, by decide, fun he => hd.1 he.symm, by decide, by decide⟩
    (fun c hc => (h c hc).1)
  have hst := header_line_avoid d rest '*'
    ⟨by decide, by decide, fun he => hd.2.1 he.symm, by decide, by decide⟩
    (fun c hc => (h c hc).2.1)
  have hun := header_line_avoid d rest '_'
    ⟨by decide, by decide, fun he => hd.2.2.1 he.symm, by decide, by decide⟩
    (fun c hc => (h c hc).2.2.1)
  have hbk := header_line_avoid d rest '['
    ⟨by decide, by decide, fun he => hd.2.2.2.1 he.symm, by decide, by decide⟩
    (fun c hc => (h c hc).2.2.2.1)
  have hbq := header_line_avoid d rest backquote
    ⟨by decide, by decide, fun he => hd.2.2.2.2.1 he.symm, by decide, by decide⟩
    (fun c hc => (h c hc).2.2.2.2.1)
  have hord := matchOrdered_none_head '<'
    ('h' :: d :: '>' :: (rest ++ ['<', '/', 'h', d, '>'])) (by decide) (by decide)
  have hbul := matchBullet_none_head '<'
    ('h' :: d :: '>' :: (rest ++ ['<', '/', 'h', d, '>'])) (by decide)
    (by decide) (by decide)
  have hqr := quoteRule_ne_head '<'
    ('h' :: d :: '>' :: (rest ++ ['<', '/', 'h', d, '>'])) (by decide)
  unfold mdTail
  dsimp only
  rw [inline_passes_id _ hnl hst hun hbk hbq hord hbul hqr]
  have hdlt : ¬('<' = d) := fun he => hd.2.2.2.2.2 he.symm
  have hrlt : ∀ c ∈ rest, c ≠ '<' := fun c hc => (h c hc).2.2.2.2.2
  have hguard : containsSeq "<li>".toList
      ("<p>".toList ++
        ('<' :: 'h' :: d :: '>' :: (rest ++ ['<', '/', 'h', d, '>'])) ++
        "</p>".toList) = false := by
    show containsSeq ('<' :: ['l', 'i', '>'])
      ("<p>".toList ++
        ('<' :: 'h' :: d :: '>' :: (rest ++ ['<', '/', 'h', d, '>'])) ++
        "</p>".toList) = false
    simp only [List.cons_append, List.nil_append, List.append_assoc]
    simp only [containsSeq, leadsWith, hdlt]
    rw [containsSeq_append '<' ['l', 'i', '>'] rest _ hrlt]
    simp [containsSeq, leadsWith, hdlt]
  rw [hguard]
  simp

instance mdPlain.decidable (c : Char) : Decidable (mdPlain c) := by
  unfold mdPlain
  exact inferInstance

lemma no_nl_concat (pre rest : List Char) (hpre : ∀ c ∈ pre, c ≠ '\n')
    (h : ∀ c ∈ rest, mdPlain c) : ∀ c ∈ pre ++ rest, c ≠ '\n' := by
  intro c hc
  rcases List.mem_append.mp hc with hc | hc
  · exact hpre c hc
  · exact (h c hc).1

/-- Claim C7: `formatMarkdown("# Title")` is exactly
`"<p><h1>Title</h1></p>"`; generally, a newline-free line of 1-5 hashes, a
space, and plain text becomes the corresponding `<h1>`..`<h5>` element
consuming the rest of the line, wrapped in one outer `<p>...</p>`. -/
theorem claim7_header_lines :
    formatMarkdown (some "# Title") = "<p><h1>Title</h1></p>" ∧
    (∀ rest : List Char, (∀ c ∈ rest, mdPlain c) →
      mdPipeline ('#' :: ' ' :: rest) =
        "<p><h1>".toList ++ rest ++ "</h1></p>".toList) ∧    (∀ rest : List Char, (∀ c ∈ rest, mdPlain c) →
      mdPipeline ('#' :: '#' :: ' ' :: rest) =
        "<p><h2>".toList ++ rest ++ "</h2></p>".toList) ∧    (∀ rest : List Char, (∀ c ∈ rest, mdPlain c) →
      mdPipeline ('#' :: '#' :: '#' :: ' ' :: rest) =
        "<p><h3>".toList ++ rest ++ "</h3></p>".toList) ∧    (∀ rest : List Char, (∀ c ∈ rest, mdPlain c) →
      mdPipeline ('#' :: '#' :: '#' :: '#' :: ' ' :: rest) =
        "<p><h4>".toList ++ rest ++ "</h4></p>".toList) ∧    (∀ rest : List Char, (∀ c ∈ rest, mdPlain c) →
      mdPipeline ('#' :: '#' :: '#' :: '#' :: '#' :: ' ' :: rest) =
        "<p><h5>".toList ++ rest ++ "</h5></p>".toList) := by
  refine ⟨by decide, ?_, ?_, ?_, ?_, ?_⟩
  · intro rest h
    have hnl0 : ∀ c ∈ ('#' :: ' ' :: rest), c ≠ '\n' :=
      no_nl_concat ['#', ' '] rest (by decide) h
    unfold mdPipeline
    rw [mapLines_no_nl (hRule 1) _ hnl0]
    have e1 : hRule 1 ('#' :: ' ' :: rest) = '<' :: 'h' :: '1' :: '>' :: (rest ++ ['<', '/', 'h', '1', '>']) := rfl
    rw [e1]
    have hl1nl := header_line_avoid '1' rest '\n'
      ⟨by decide, by decide, by decide, by decide, by decide⟩
      (fun c hc => (h c hc).1)
    rw [mapLines_no_nl (hRule 2) _ hl1nl, hRule_no_hash 2 '<' _ (by decide) (by decide)]
    rw [mapLines_no_nl (hRule 3) _ hl1nl, hRule_no_hash 3 '<' _ (by decide) (by decide)]
    rw [mapLines_no_nl (hRule 4) _ hl1nl, hRule_no_hash 4 '<' _ (by decide) (by decide)]
    rw [mapLines_no_nl (hRule 5) _ hl1nl, hRule_no_hash 5 '<' _ (by decide) (by decide)]
    rw [mdTail_header_line '1' (by decide) rest h]
    simp only [List.append_assoc, List.cons_append, List.nil_append]
    rfl
  · intro rest h
    have hnl0 : ∀ c ∈ ('#' :: '#' :: ' ' :: rest), c ≠ '\n' :=
      no_nl_concat ['#', '#', ' '] rest (by decide) h
    unfold mdPipeline
    have e01 : hRule 1 ('#' :: '#' :: ' ' :: rest) = '#' :: '#' :: ' ' :: rest := by
      unfold hRule
      rw [if_neg]
      intro hc
      simp at hc
    rw [mapLines_no_nl (hRule 1) _ hnl0, e01]
    rw [mapLines_no_nl (hRule 2) _ hnl0]
    have e1 : hRule 2 ('#' :: '#' :: ' ' :: rest) = '<' :: 'h' :: '2' :: '>' :: (rest ++ ['<', '/', 'h', '2', '>']) := rfl
    rw [e1]
    have hl1nl := header_line_avoid '2' rest '\n'
      ⟨by decide, by decide, by decide, by decide, by decide⟩
      (fun c hc => (h c hc).1)
    rw [mapLines_no_nl (hRule 3) _ hl1nl, hRule_no_hash 3 '<' _ (by decide) (by decide)]
    rw [mapLines_no_nl (hRule 4) _ hl1nl, hRule_no_hash 4 '<' _ (by decide) (by decide)]
    rw [mapLines_no_nl (hRule 5) _ hl1nl, hRule_no_hash 5 '<' _ (by decide) (by decide)]
    rw [mdTail_header_line '2' (by decide) rest h]
    simp only [List.append_assoc, List.cons_append, List.nil_append]
    rfl
  · intro rest h
    have hnl0 : ∀ c ∈ ('#' :: '#' :: '#' :: ' ' :: rest), c ≠ '\n' :=
      no_nl_concat ['#', '#', '#', ' '] rest (by decide) h
    unfold mdPipeline
    have e01 : hRule 1 ('#' :: '#' :: '#' :: ' ' :: rest) = '#' :: '#' :: '#' :: ' ' :: rest := by
      unfold hRule
      rw [if_neg]
      intro hc
      simp at hc
    have e02 : hRule 2 ('#' :: '#' :: '#' :: ' ' :: rest) = '#' :: '#' :: '#' :: ' ' :: rest := by
      unfold hRule
      rw [if_neg]
      intro hc
      simp at hc
    rw [mapLines_no_nl (hRule 1) _ hnl0, e01]
    rw [mapLines_no_nl (hRule 2) _ hnl0, e02]
    rw [mapLines_no_nl (hRule 3) _ hnl0]
    have e1 : hRule 3 ('#' :: '#' :: '#' :: ' ' :: rest) = '<' :: 'h' :: '3' :: '>' :: (rest ++ ['<', '/', 'h', '3', '>']) := rfl
    rw [e1]
    have hl1nl := header_line_avoid '3' rest '\n'
      ⟨by decide, by decide, by decide, by decide, by decide⟩
      (fun c hc => (h c hc).1)
    rw [mapLines_no_nl (hRule 4) _ hl1nl, hRule_no_hash 4 '<' _ (by decide) (by decide)]
    rw [mapLines_no_nl (hRule 5) _ hl1nl, hRule_no_hash 5 '<' _ (by decide) (by decide)]
    rw [mdTail_header_line '3' (by decide) rest h]
    simp only [List.append_assoc, List.cons_append, List.nil_append]
    rfl
  · intro rest h
    have hnl0 : ∀ c ∈ ('#' :: '#' :: '#' :: '#' :: ' ' :: rest), c ≠ '\n' :=
      no_nl_concat ['#', '#', '#', '#', ' '] rest (by decide) h
    unfold mdPipeline
    have e01 : hRule 1 ('#' :: '#' :: '#' :: '#' :: ' ' :: rest) = '#' :: '#' :: '#' :: '#' :: ' ' :: rest := by
      unfold hRule
      rw [if_neg]
      intro hc
      simp at hc
    have e02 : hRule 2 ('#' :: '#' :: '#' :: '#' :: ' ' :: rest) = '#' :: '#' :: '#' :: '#' :: ' ' :: rest := by
      unfold hRule
      rw [if_neg]
      intro hc
      simp at hc
    have e03 : hRule 3 ('#' :: '#' :: '#' :: '#' :: ' ' :: rest) = '#' :: '#' :: '#' :: '#' :: ' ' :: rest := by
      unfold hRule
      rw [if_neg]
      intro hc
      simp at hc
    rw [mapLines_no_nl (hRule 1) _ hnl0, e01]
    rw [mapLines_no_nl (hRule 2) _ hnl0, e02]
    rw [mapLines_no_nl (hRule 3) _ hnl0, e03]
    rw [mapLines_no_nl (hRule 4) _ hnl0]
    have e1 : hRule 4 ('#' :: '#' :: '#' :: '#' :: ' ' :: rest) = '<' :: 'h' :: '4' :: '>' :: (rest ++ ['<', '/', 'h', '4', '>']) := rfl
    rw [e1]
    have hl1nl := header_line_avoid '4' rest '\n'
      ⟨by decide, by decide, by decide, by decide, by decide⟩
      (fun c hc => (h c hc).1)
    rw [mapLines_no_nl (hRule 5) _ hl1nl, hRule_no_hash 5 '<' _ (by decide) (by decide)]
    rw [mdTail_header_line '4' (by decide) rest h]
    simp only [List.append_assoc, List.cons_append, List.nil_append]
    rfl
  · intro rest h
    have hnl0 : ∀ c ∈ ('#' :: '#' :: '#' :: '#' :: '#' :: ' ' :: rest), c ≠ '\n' :=
      no_nl_concat ['#', '#', '#', '#', '#', ' '] rest (by decide) h
    unfold mdPipeline
    have e01 : hRule 1 ('#' :: '#' :: '#' :: '#' :: '#' :: ' ' :: rest) = '#' :: '#' :: '#' :: '#' :: '#' :: ' ' :: rest := by
      unfold hRule
      rw [if_neg]
      intro hc
      simp at hc
    have e02 : hRule 2 ('#' :: '#' :: '#' :: '#' :: '#' :: ' ' :: rest) = '#' :: '#' :: '#' :: '#' :: '#' :: ' ' :: rest := by
      unfold hRule
      rw [if_neg]
      intro hc
      simp at hc
    have e03 : hRule 3 ('#' :: '#' :: '#' :: '#' :: '#' :: ' ' :: rest) = '#' :: '#' :: '#' :: '#' :: '#' :: ' ' :: rest := by
      unfold hRule
      rw [if_neg]
      intro hc
      simp at hc
    have e04 : hRule 4 ('#' :: '#' :: '#' :: '#' :: '#' :: ' ' :: rest) = '#' :: '#' :: '#' :: '#' :: '#' :: ' ' :: rest := by
      unfold hRule
      rw [if_neg]
      intro hc
      simp at hc
    rw [mapLines_no_nl (hRule 1) _ hnl0, e01]
    rw [mapLines_no_nl (hRule 2) _ hnl0, e02]
    rw [mapLines_no_nl (hRule 3) _ hnl0, e03]
    rw [mapLines_no_nl (hRule 4) _ hnl0, e04]
    rw [mapLines_no_nl (hRule 5) _ hnl0]
    have e1 : hRule 5 ('#' :: '#' :: '#' :: '#' :: '#' :: ' ' :: rest) = '<' :: 'h' :: '5' :: '>' :: (rest ++ ['<', '/', 'h', '5', '>']) := rfl
    rw [e1]
    have hl1nl := header_line_avoid '5' rest '\n'
      ⟨by decide, by decide, by decide, by decide, by decide⟩
      (fun c hc => (h c hc).1)
    rw [mdTail_header_line '5' (by decide) rest h]
    simp only [List.append_assoc, List.cons_append, List.nil_append]
    rfl

/-- Witness for claim C7: the general header statements applied to the plain
rests `"Title"` and `"sub"`. -/
theorem claim7_header_lines_witness :
    mdPipeline ('#' :: ' ' :: "Title".toList) =
      "<p><h1>".toList ++ "Title".toList ++ "</h1></p>".toList ∧
    mdPipeline ('#' :: '#' :: ' ' :: "sub".toList) =
      "<p><h2>".toList ++ "sub".toList ++ "</h2></p>".toList ∧
    mdPipeline ('#' :: '#' :: '#' :: '#' :: '#' :: ' ' :: "deep".toList) =
      "<p><h5>".toList ++ "deep".toList ++ "</h5></p>".toList :=
  ⟨claim7_header_lines.2.1 "Title".toList (by decide),
   claim7_header_lines.2.2.1 "sub".toList (by decide),
   claim7_header_lines.2.2.2.2.2 "deep".toList (by decide)⟩

